import Mathlib

/-!
Verification model of the ArcRevoke repository.

Backend (Express routes + Drizzle storage): `registerRoutes` in the server
routes file, `DatabaseStorage` in the storage file, and the Zod insert schema
in `src/shared/schema.ts`.

Frontend (React approval list): `scanForApprovals`, `getTokenPrice`,
`formatValueAtRisk`, `recordRevokeToServer`, `handleRevokeDetected` and
`handleBatchRevokeDetected` in `src/client/src/components/ApprovalList.tsx`.

JavaScript numbers are modelled as `JsNum` (NaN, signed infinity, or an exact
rational); decimal strings are parsed and printed by executable models of
`parseFloat`, `parseInt` and `Number.prototype.toFixed(2)`.
-/

namespace ArcRevoke

/-- A JavaScript number as it occurs in this code base: NaN, a signed
infinity, or a finite value (modelled as an exact rational). -/
inductive JsNum where
  | nan : JsNum
  | inf (neg : Bool) : JsNum
  | fin (q : ℚ) : JsNum
deriving DecidableEq, Repr

/-- Numeric value of a decimal digit character. -/
def charVal (c : Char) : Nat := c.toNat - 48

/-- Whitespace skipped by JS `parseFloat` / `parseInt`. -/
def jsWhitespace (c : Char) : Bool :=
  c = ' ' || c = '\t' || c = '\n' || c = '\r' || c = '\x0b' || c = '\x0c'

/-- Value of a most-significant-first digit string, as accumulated by a
left-to-right parse. -/
def digitsToNat (cs : List Char) : Nat :=
  cs.foldl (fun a c => 10 * a + charVal c) 0

/-- Leading sign of a JS numeric literal: returns (isNegative, rest). -/
def parseSign (cs : List Char) : Bool × List Char :=
  match cs with
  | c :: rest =>
    if c = '-' then (true, rest)
    else if c = '+' then (false, rest)
    else (false, cs)
  | [] => (false, cs)

/-- The mantissa of a JS decimal literal: digits, optionally followed by a
point and more digits.  Returns `none` (NaN) when no digit is present,
otherwise the exact value together with the unconsumed suffix. -/
def parseMantissa (cs : List Char) : Option (ℚ × List Char) :=
  let intDigits := cs.takeWhile Char.isDigit
  let rest1 := cs.dropWhile Char.isDigit
  match rest1 with
  | c :: rest2 =>
    if c = '.' then
      let fracDigits := rest2.takeWhile Char.isDigit
      let rest3 := rest2.dropWhile Char.isDigit
      if intDigits.isEmpty ∧ fracDigits.isEmpty then none
      else some ((digitsToNat intDigits : ℚ)
          + (digitsToNat fracDigits : ℚ) / (10 : ℚ) ^ fracDigits.length, rest3)
    else if intDigits.isEmpty then none
    else some ((digitsToNat intDigits : ℚ), rest1)
  | [] =>
    if intDigits.isEmpty then none
    else some ((digitsToNat intDigits : ℚ), rest1)

/-- Optional exponent part of a JS decimal literal; an absent or malformed
exponent contributes a factor of 1 (JS ignores trailing junk). -/
def parseExponent (cs : List Char) : ℤ :=
  match cs with
  | c :: rest =>
    if c = 'e' ∨ c = 'E' then
      let sr := parseSign rest
      let eDigits := sr.2.takeWhile Char.isDigit
      if eDigits.isEmpty then 0
      else if sr.1 then -(digitsToNat eDigits : ℤ) else (digitsToNat eDigits : ℤ)
    else 0
  | [] => 0

/-- Scale a rational by a signed power of ten. -/
def scalePow10 (m : ℚ) (e : ℤ) : ℚ :=
  if 0 ≤ e then m * (10 : ℚ) ^ e.toNat else m / (10 : ℚ) ^ (-e).toNat

/-- Model of JS `parseFloat`: skip whitespace, optional sign, `Infinity` or a
decimal literal with optional exponent; anything else is NaN.  Trailing
characters are ignored, as in JS. -/
def jsParseFloat (s : String) : JsNum :=
  let cs := s.toList.dropWhile jsWhitespace
  let sr := parseSign cs
  if sr.2.take 8 = "Infinity".toList then JsNum.inf sr.1
  else
    match parseMantissa sr.2 with
    | none => JsNum.nan
    | some mr =>
      let q := scalePow10 mr.1 (parseExponent mr.2)
      JsNum.fin (if sr.1 then -q else q)

/-- Model of JS `parseInt` with no radix argument on the strings this system
produces: whitespace, optional sign, then decimal digits (a leading `0x`
selects hexadecimal, which never round-trips through this app's own output).
`none` is NaN. -/
def jsParseInt (s : String) : Option ℤ :=
  let cs := s.toList.dropWhile jsWhitespace
  let sr := parseSign cs
  let hexDigits := fun (l : List Char) => l.takeWhile (fun c =>
    c.isDigit || ('a' ≤ c && c ≤ 'f') || ('A' ≤ c && c ≤ 'F'))
  match sr.2 with
  | '0' :: 'x' :: rest =>
    let ds := hexDigits rest
    if ds.isEmpty then none
    else some (ds.foldl (fun a c =>
      16 * a + (if c.isDigit then (charVal c : ℤ)
                else if 'a' ≤ c ∧ c ≤ 'f' then (c.toNat : ℤ) - 87
                else (c.toNat : ℤ) - 55)) 0)
  | '0' :: 'X' :: rest =>
    let ds := hexDigits rest
    if ds.isEmpty then none
    else some (ds.foldl (fun a c =>
      16 * a + (if c.isDigit then (charVal c : ℤ)
                else if 'a' ≤ c ∧ c ≤ 'f' then (c.toNat : ℤ) - 87
                else (c.toNat : ℤ) - 55)) 0)
  | other =>
    let ds := other.takeWhile Char.isDigit
    if ds.isEmpty then none
    else some (if sr.1 then -(digitsToNat ds : ℤ) else (digitsToNat ds : ℤ))

/-- JS falsy-or on a parsed number against the literal `0`
(`parseFloat(x) || 0`): NaN and 0 collapse to 0, everything else persists. -/
def jsOrZero : JsNum → JsNum
  | JsNum.nan => JsNum.fin 0
  | JsNum.inf b => JsNum.inf b
  | JsNum.fin q => if q = 0 then JsNum.fin 0 else JsNum.fin q

/-- JS falsy-or on an optional string against a default
(`x || d`): `undefined` and the empty string fall back to the default. -/
def jsStrOr (v : Option String) (d : String) : String :=
  match v with
  | some s => if s = "" then d else s
  | none => d

/-- JS `+` on the numbers reachable in this code base. -/
def jsAdd : JsNum → JsNum → JsNum
  | JsNum.nan, _ => JsNum.nan
  | _, JsNum.nan => JsNum.nan
  | JsNum.inf b, JsNum.inf b' => if b = b' then JsNum.inf b else JsNum.nan
  | JsNum.inf b, JsNum.fin _ => JsNum.inf b
  | JsNum.fin _, JsNum.inf b => JsNum.inf b
  | JsNum.fin a, JsNum.fin b => JsNum.fin (a + b)

/-- Decimal digits of `n`, least significant first (`[]` for 0). -/
def natDigitsRev (n : Nat) : List Char :=
  if h : n = 0 then []
  else Nat.digitChar (n % 10) :: natDigitsRev (n / 10)
termination_by n
decreasing_by exact Nat.div_lt_self (Nat.pos_of_ne_zero h) (by omega)

/-- Decimal rendering of a natural number, most significant digit first. -/
def natToChars (n : Nat) : List Char :=
  if n = 0 then ['0'] else (natDigitsRev n).reverse

/-- The integer nearest to `q` in JS `toFixed` tie-breaking (ties go to the
value of larger magnitude). -/
def toFixedRound (q : ℚ) : ℤ :=
  if q < 0 then -(Int.floor (-q + 1 / 2)) else Int.floor (q + 1 / 2)

/-- The two fraction digits of a hundredths value `x < 100`. -/
def fracChars (x : Nat) : List Char :=
  if x < 10 then '0' :: natToChars x else natToChars x

/-- Model of `x.toFixed(2)` for a finite JS number: round to hundredths and
print with exactly two fraction digits. -/
def toFixed2Q (q : ℚ) : String :=
  let n := toFixedRound (q * 100)
  let a := n.natAbs
  String.mk ((if n < 0 then ['-'] else []) ++ natToChars (a / 100) ++ '.' :: fracChars (a % 100))

/-- Value of a least-significant-first digit list (proof helper for the
digit-rendering round trip). -/
def valRev : List Char → Nat
  | [] => 0
  | c :: cs => charVal c + 10 * valRev cs

/-- Model of `x.toFixed(2)` on a general JS number. -/
def jsToFixed2 : JsNum → String
  | JsNum.nan => "NaN"
  | JsNum.inf true => "-Infinity"
  | JsNum.inf false => "Infinity"
  | JsNum.fin q => toFixed2Q q

/-- A rational is representable in two decimal places (the `decimal(20,2)`
columns of the schema). -/
def isCents (q : ℚ) : Prop := ∃ n : ℤ, q * 100 = n

/-! ## Backend data model (src/shared/schema.ts and the storage file) -/

/-- One row of the `revoke_stats` table: generated id, `total_revokes`
(integer, default 0), `total_value_secured` (decimal(20,2) as drizzle returns
it to JS: a string, default "0"). -/
structure StatsRow where
  id : Nat
  totalRevokes : ℤ
  totalValueSecured : String
deriving DecidableEq, Repr

/-- One row of the `revoke_history` table. `createdAt` is the server-side
insertion timestamp (`defaultNow`), modelled as a logical clock. -/
structure HistoryRow where
  id : Nat
  walletAddress : String
  tokenAddress : String
  tokenSymbol : String
  spenderAddress : String
  valueSecured : String
  txHash : Option String
  createdAt : Nat
deriving DecidableEq, Repr

/-- The backend database: the `revoke_stats` rows (in the unspecified order a
bare `select` returns them, head first), the `revoke_history` rows in
insertion order, an id generator and the server clock. -/
structure DB where
  statsRows : List StatsRow
  historyRows : List HistoryRow
  nextId : Nat
  now : Nat
deriving DecidableEq, Repr

/-- A POST /api/revoke request body before validation.  Each field is either
absent (`none`) or present as the JSON value the schema would accept;
`txHash` may additionally be present-as-null (`some none`). -/
structure RevokeBody where
  walletAddress : Option String
  tokenAddress : Option String
  tokenSymbol : Option String
  spenderAddress : Option String
  valueSecured : Option String
  txHash : Option (Option String)
deriving DecidableEq, Repr

/-- A validated insert payload (`z.infer<typeof insertRevokeHistorySchema>`):
the four notNull columns without defaults are required; `valueSecured` (column
default "0") and `txHash` (nullable) stay optional. -/
structure InsertRevokeHistory where
  walletAddress : String
  tokenAddress : String
  tokenSymbol : String
  spenderAddress : String
  valueSecured : Option String
  txHash : Option (Option String)
deriving DecidableEq, Repr

/-- Model of `insertRevokeHistorySchema.safeParse` (schema.ts: the insert
schema omits `id` and `createdAt`; string columns with no default are
required, `valueSecured` and `txHash` optional).  Fails exactly when a
required field is missing. -/
def insertRevokeHistorySafeParse (b : RevokeBody) : Option InsertRevokeHistory :=
  match b.walletAddress, b.tokenAddress, b.tokenSymbol, b.spenderAddress with
  | some w, some t, some sym, some sp =>
    some { walletAddress := w, tokenAddress := t, tokenSymbol := sym,
           spenderAddress := sp, valueSecured := b.valueSecured, txHash := b.txHash }
  | _, _, _, _ => none

/-! ## DatabaseStorage (the storage file) -/

/-- The logical stats singleton as the storage code reads it: the first row a
bare `select` returns, or the zero totals when the table is empty. -/
def statsHead (db : DB) : ℤ × String :=
  match db.statsRows with
  | [] => (0, "0")
  | s :: _ => (s.totalRevokes, s.totalValueSecured)

/-- Model of `DatabaseStorage.getRevokeStats`: read the first stats row;
when the table is empty, insert a zero row and answer with zeros. -/
def getRevokeStats (db : DB) : (ℤ × String) × DB :=
  match db.statsRows with
  | [] =>
    ((0, "0"),
     { db with statsRows := [{ id := db.nextId, totalRevokes := 0, totalValueSecured := "0" }],
               nextId := db.nextId + 1 })
  | s :: _ => ((s.totalRevokes, s.totalValueSecured), db)

/-- Model of `DatabaseStorage.recordRevoke`: insert the history row (column
defaults supply `valueSecured` "0" and `txHash` null), then read the stats
table; initialise it with the new totals when empty, otherwise update the row
with the first row's id (`total_revokes + 1` computed in SQL, the new value
total computed in JS as `parseFloat(existing) + (parseFloat(body) || 0)`
rendered by `toFixed(2)`). -/
def recordRevoke (data : InsertRevokeHistory) (db : DB) : HistoryRow × DB :=
  let record : HistoryRow :=
    { id := db.nextId, walletAddress := data.walletAddress,
      tokenAddress := data.tokenAddress, tokenSymbol := data.tokenSymbol,
      spenderAddress := data.spenderAddress,
      valueSecured := data.valueSecured.getD "0",
      txHash := data.txHash.getD none, createdAt := db.now }
  let db1 : DB := { db with historyRows := db.historyRows ++ [record],
                            nextId := db.nextId + 1, now := db.now + 1 }
  let valueSecured := jsOrZero (jsParseFloat (jsStrOr data.valueSecured "0"))
  match db1.statsRows with
  | [] =>
    (record,
     { db1 with
        statsRows := [{ id := db1.nextId, totalRevokes := 1,
                        totalValueSecured := jsToFixed2 valueSecured }],
        nextId := db1.nextId + 1 })
  | existing :: _ =>
    let newTotal := jsAdd (jsParseFloat existing.totalValueSecured) valueSecured
    (record,
     { db1 with
        statsRows := db1.statsRows.map (fun r =>
          if r.id = existing.id then
            { r with totalRevokes := r.totalRevokes + 1,
                     totalValueSecured := jsToFixed2 newTotal }
          else r) })

/-- Model of `DatabaseStorage.getRecentRevokes`: history ordered by
`created_at DESC`, limited. -/
def getRecentRevokes (limit : ℤ) (db : DB) : List HistoryRow :=
  ((db.historyRows.mergeSort (fun a b => b.createdAt ≤ a.createdAt)).take limit.toNat)

/-! ## Routes (the server routes file) -/

/-- Outcome of POST /api/revoke: 400 on schema failure, otherwise the created
row (the 500 branch only fires on database exceptions, which the store model
does not raise). -/
inductive PostRevokeResult where
  | badRequest : PostRevokeResult
  | created (record : HistoryRow) : PostRevokeResult
deriving DecidableEq, Repr

/-- Model of the POST /api/revoke handler in `registerRoutes`. -/
def postRevokeRoute (body : RevokeBody) (db : DB) : PostRevokeResult × DB :=
  match insertRevokeHistorySafeParse body with
  | none => (PostRevokeResult.badRequest, db)
  | some data =>
    let r := recordRevoke data db
    (PostRevokeResult.created r.1, r.2)

/-- Model of the GET /api/stats handler in `registerRoutes`. -/
def getStatsRoute (db : DB) : (ℤ × String) × DB :=
  getRevokeStats db

/-- Model of the GET /api/revokes/recent handler: `parseInt(req.query.limit)
|| 10` (an absent parameter coerces to the string "undefined", hence NaN, and
NaN and 0 are both falsy), then `getRecentRevokes`. -/
def recentRevokesRoute (limitParam : Option String) (db : DB) : List HistoryRow :=
  let parsed := match limitParam with
    | none => none
    | some s => jsParseInt s
  let limit : ℤ := match parsed with
    | none => 10
    | some n => if n = 0 then 10 else n
  getRecentRevokes limit db

/-! ## Frontend model (src/client/src/components/ApprovalList.tsx) -/

/-- JS falsy-or on a string against a default string (`s || d`). -/
def jsStrOrS (s d : String) : String := if s = "" then d else s

/-- JS falsy-or on an optional number against a default
(`token.decimals || 18`): `undefined` and 0 fall back to the default. -/
def jsNatOr (v : Option Nat) (d : Nat) : Nat :=
  match v with
  | some n => if n = 0 then d else n
  | none => d

/-- A token as listed by the explorer and enriched by `fetchTokens`. -/
structure Token where
  contractAddress : String
  name : String
  symbol : String
  decimals : Option Nat
deriving DecidableEq, Repr

/-- A detected approval (the `DetectedApproval` interface).  The on-chain
allowance is kept in human units as the exact rational the formatted string
denotes; `valueAtRisk` is the JS number the scan computed. -/
structure DetectedApproval where
  id : String
  tokenAddress : String
  tokenName : String
  tokenSymbol : String
  spenderAddress : String
  allowance : Option ℚ
  valueAtRisk : Option JsNum
deriving DecidableEq, Repr

/-- The static testnet price table (`TESTNET_PRICES`). -/
def TESTNET_PRICES : List (String × ℚ) :=
  [("USDC", 1), ("USDT", 1), ("DAI", 1), ("WETH", 2200), ("ETH", 2200),
   ("WBTC", 43000), ("BTC", 43000), ("ARC", 1 / 2), ("TEST", 1 / 10)]

/-- Model of `getTokenPrice`: uppercase the symbol, look it up, and fall back
to 0.01 on a miss (`TESTNET_PRICES[upperSymbol] || 0.01`). -/
def getTokenPrice (symbol : String) : ℚ :=
  match TESTNET_PRICES.lookup symbol.toUpper with
  | some p => if p = 0 then 1 / 100 else p
  | none => 1 / 100

/-- One historical log returned by the explorer's getLogs endpoint. -/
structure ApprovalLog where
  topics : List String
deriving DecidableEq, Repr

/-- The external world the scan reads: per-token the explorer's log query
result (`none` models a failed or malformed response, caught per token), and
the live `allowance(owner, spender)` contract read (`none` models a throwing
call, caught per spender). -/
structure ScanEnv where
  logsResult : String → Option (List ApprovalLog)
  allowanceCall : String → String → String → Option Nat

/-- Spender extraction from one log: requires a truthy `topics[2]`, takes its
last 40 characters behind an `0x` prefix, lowercased (mirrors
`('0x' + log.topics[2].slice(-40)).toLowerCase()` as built in the loop). -/
def extractSpender (log : ApprovalLog) : Option String :=
  match log.topics.get? 2 with
  | some t => if t = "" then none else some (("0x" ++ t.takeRight 40).toLower)
  | none => none

/-- Insertion into a JS `Set` modelled as an order-preserving list. -/
def insertUnique (l : List String) (s : String) : List String :=
  if s ∈ l then l else l ++ [s]

/-- The deduplicated spender list of a token's logs, in first-seen order. -/
def uniqueSpenders (logs : List ApprovalLog) : List String :=
  (logs.filterMap extractSpender).foldl insertUnique []

/-- Scan of a single token (one iteration of the `for (const token of
tokenList)` loop in `scanForApprovals`): fetch historical Approval logs, skip
the token when the query fails or returns nothing, deduplicate spenders, then
keep each spender whose live allowance reads back greater than zero, with the
estimated value at risk (`Infinity` beyond 1e12).  The source's local consts
`decimals` (token.decimals || 18), `allowanceFormatted`
(parseFloat(formatUnits(allowance, decimals)), the exact rational
allowance/10^decimals), `tokenPrice` and `valueAtRisk` are written inline
here. -/
def scanToken (env : ScanEnv) (account : String) (token : Token) : List DetectedApproval :=
  match env.logsResult token.contractAddress with
  | none => []
  | some logs =>
    if logs.length = 0 then []
    else
      (uniqueSpenders logs).filterMap (fun spender =>
        match env.allowanceCall account token.contractAddress spender with
        | none => none
        | some allowance =>
          if 0 < allowance then
            some { id := token.contractAddress ++ "-" ++ spender,
                   tokenAddress := token.contractAddress,
                   tokenName := jsStrOrS token.name "Unknown",
                   tokenSymbol := jsStrOrS token.symbol "???",
                   spenderAddress := spender,
                   allowance := some ((allowance : ℚ) / (10 : ℚ) ^ jsNatOr token.decimals 18),
                   valueAtRisk := some (if ((allowance : ℚ) /
                       (10 : ℚ) ^ jsNatOr token.decimals 18) *
                       getTokenPrice (jsStrOrS token.symbol "???") > (10 : ℚ) ^ 12
                     then JsNum.inf false
                     else JsNum.fin (((allowance : ℚ) /
                       (10 : ℚ) ^ jsNatOr token.decimals 18) *
                       getTokenPrice (jsStrOrS token.symbol "???"))) }
          else none)

/-- Model of `scanForApprovals`: the per-token results accumulated over the
token list in order. -/
def scanForApprovals (env : ScanEnv) (account : String) (tokenList : List Token) :
    List DetectedApproval :=
  tokenList.flatMap (scanToken env account)

/-- Model of `formatValueAtRisk`. -/
def formatValueAtRisk : Option JsNum → String
  | none => "-"
  | some JsNum.nan => "Unlimited"
  | some (JsNum.inf _) => "Unlimited"
  | some (JsNum.fin v) =>
    if v < 1 / 100 then "<$0.01"
    else if v < 1000 then "$" ++ toFixed2Q v
    else if v < 1000000 then "$" ++ toFixed2Q (v / 1000) ++ "K"
    else "$" ++ toFixed2Q (v / 1000000) ++ "M"

/-- The body `recordRevokeToServer` posts to POST /api/revoke. -/
structure RevokePost where
  walletAddress : String
  tokenAddress : String
  tokenSymbol : String
  spenderAddress : String
  valueSecured : String
  txHash : Option String
deriving DecidableEq, Repr

/-- The number `recordRevokeToServer` serialises:
`approval.valueAtRisk && isFinite(approval.valueAtRisk) ? approval.valueAtRisk : 0`
(undefined, 0, NaN and the infinities all collapse to 0). -/
def valueForPost : Option JsNum → ℚ
  | some (JsNum.fin q) => if q = 0 then 0 else q
  | _ => 0

/-- Model of `recordRevokeToServer`: the record posted for one successful
revoke (`txHash || null` nulls out an absent or empty hash). -/
def recordRevokeToServer (account : String) (approval : DetectedApproval)
    (txHash : Option String) : RevokePost :=
  { walletAddress := account,
    tokenAddress := approval.tokenAddress,
    tokenSymbol := approval.tokenSymbol,
    spenderAddress := approval.spenderAddress,
    valueSecured := toFixed2Q (valueForPost approval.valueAtRisk),
    txHash := match txHash with
      | some s => if s = "" then none else some s
      | none => none }

/-- The component state the revoke handlers touch. -/
structure UIState where
  detectedApprovals : List DetectedApproval
  revokingIds : List String
  selectedIds : List String
deriving DecidableEq, Repr

/-- Wallet error codes the handler distinguishes (`err.code === 4001 ||
err.code === 'ACTION_REJECTED'`). -/
inductive ErrCode where
  | code4001 : ErrCode
  | actionRejected : ErrCode
  | other : ErrCode
deriving DecidableEq, Repr

/-- Combined outcome of the network switch, signing and confirmation of one
revoke transaction; success carries `receipt?.hash`. -/
inductive TxAttempt where
  | success (txHash : Option String) : TxAttempt
  | failure (code : ErrCode) (message : String) : TxAttempt
deriving DecidableEq, Repr

/-- The toast `handleRevokeDetected` ends with. -/
inductive RevokeToast where
  | walletNotConnected : RevokeToast
  | revoked (symbol : String) : RevokeToast
  | cancelled : RevokeToast
  | failed (message : String) : RevokeToast
deriving DecidableEq, Repr

/-- Model of `handleRevokeDetected` for a single detected approval: guard on
the wallet, mark the item as in progress, attempt the transaction; on success
post the record, remove the item from the detected set and from the
in-progress set; on any failure leave the detected set alone, toast
"Cancelled" for a wallet rejection and "Failed" otherwise, and clear the
in-progress mark so the action is retryable. -/
def handleRevokeDetected (connected : Bool) (attempt : TxAttempt) (account : String)
    (approval : DetectedApproval) (st : UIState) : UIState × RevokeToast × List RevokePost :=
  if ¬ connected then (st, RevokeToast.walletNotConnected, [])
  else
    let st1 := { st with revokingIds := insertUnique st.revokingIds approval.id }
    match attempt with
    | TxAttempt.success h =>
      ({ st1 with
          detectedApprovals := st1.detectedApprovals.filter (fun x => x.id ≠ approval.id),
          revokingIds := st1.revokingIds.filter (fun x => x ≠ approval.id) },
       RevokeToast.revoked approval.tokenSymbol,
       [recordRevokeToServer account approval h])
    | TxAttempt.failure code _msg =>
      ({ st1 with revokingIds := st1.revokingIds.filter (fun x => x ≠ approval.id) },
       if code = ErrCode.code4001 ∨ code = ErrCode.actionRejected
       then RevokeToast.cancelled
       else RevokeToast.failed (match attempt with
         | TxAttempt.failure _ m => m
         | _ => ""),
       [])

/-- The toast `handleBatchRevokeDetected` ends with. -/
inductive BatchToast where
  | noToast : BatchToast
  | walletNotConnected : BatchToast
  | batchComplete (success total : Nat) : BatchToast
  | batchFailed (message : String) : BatchToast
deriving DecidableEq, Repr

/-- The external world of a batch revoke: the wallet guard, the network
switch, and the per-item transaction outcome. -/
structure BatchEnv where
  connected : Bool
  switchOk : Bool
  tx : DetectedApproval → Option (Option String)

/-- The sequential `for (const approval of toRevoke)` loop of
`handleBatchRevokeDetected`: each item is attempted in order and
independently; a success bumps the counter, records the id and posts to the
server, a failure is logged and skipped.  Returns (success count, revoked
ids, posted records), each in processing order. -/
def batchLoop (account : String) (tx : DetectedApproval → Option (Option String)) :
    List DetectedApproval → Nat × List String × List RevokePost
  | [] => (0, [], [])
  | a :: rest =>
    match tx a with
    | some h =>
      let r := batchLoop account tx rest
      (r.1 + 1, a.id :: r.2.1, recordRevokeToServer account a h :: r.2.2)
    | none => batchLoop account tx rest

/-- Model of `handleBatchRevokeDetected`: filter the detected set by the
selection, guard on emptiness and on the wallet, run the sequential loop
(a failed network switch aborts the whole batch), then report the aggregate
counts, drop the successfully revoked items from the detected set and clear
the selection. -/
def handleBatchRevokeDetected (env : BatchEnv) (account : String) (st : UIState) :
    UIState × BatchToast × List RevokePost :=
  let toRevoke := st.detectedApprovals.filter (fun a => a.id ∈ st.selectedIds)
  if toRevoke.length = 0 then (st, BatchToast.noToast, [])
  else if ¬ env.connected then (st, BatchToast.walletNotConnected, [])
  else if ¬ env.switchOk then (st, BatchToast.batchFailed "switch failed", [])
  else
    let r := batchLoop account env.tx toRevoke
    ({ st with
        detectedApprovals := st.detectedApprovals.filter (fun a => a.id ∉ r.2.1),
        selectedIds := [] },
     BatchToast.batchComplete r.1 toRevoke.length, r.2.2)

/-! ## Digit-string lemmas -/

theorem charVal_digitChar {d : Nat} (h : d < 10) : charVal (Nat.digitChar d) = d := by
  interval_cases d <;> decide

theorem isDigit_digitChar {d : Nat} (h : d < 10) : (Nat.digitChar d).isDigit = true := by
  interval_cases d <;> decide

theorem natDigitsRev_all_digits (n : Nat) : ∀ c ∈ natDigitsRev n, c.isDigit = true := by
  induction n using Nat.strong_induction_on with
  | _ n ih =>
    rw [natDigitsRev]
    split
    · intro c hc
      simp at hc
    · next h =>
      intro c hc
      rcases List.mem_cons.mp hc with rfl | hm
      · exact isDigit_digitChar (Nat.mod_lt _ (by omega))
      · exact ih (n / 10) (Nat.div_lt_self (Nat.pos_of_ne_zero h) (by omega)) c hm

theorem natToChars_all_digits (n : Nat) : ∀ c ∈ natToChars n, c.isDigit = true := by
  unfold natToChars
  split
  · intro c hc
    rw [List.mem_singleton.mp hc]
    decide
  · intro c hc
    exact natDigitsRev_all_digits n c (List.mem_reverse.mp hc)

theorem natToChars_ne_nil (n : Nat) : natToChars n ≠ [] := by
  unfold natToChars
  split
  · simp
  · next h =>
    simp only [ne_eq, List.reverse_eq_nil_iff]
    rw [natDigitsRev]
    simp [h]

theorem foldl_digits_from (l : List Char) (a : Nat) :
    l.foldl (fun a c => 10 * a + charVal c) a = a * 10 ^ l.length + digitsToNat l := by
  induction l generalizing a with
  | nil => simp [digitsToNat]
  | cons c l ih =>
    have h2 : digitsToNat (c :: l) = charVal c * 10 ^ l.length + digitsToNat l := by
      show l.foldl _ (10 * 0 + charVal c) = _
      rw [ih]
      ring_nf
    show l.foldl _ (10 * a + charVal c) = _
    rw [ih, h2, List.length_cons, pow_succ]
    ring

theorem digitsToNat_snoc (l : List Char) (c : Char) :
    digitsToNat (l ++ [c]) = 10 * digitsToNat l + charVal c := by
  unfold digitsToNat
  rw [List.foldl_append]
  rfl

theorem digitsToNat_reverse_natDigitsRev (n : Nat) :
    digitsToNat (natDigitsRev n).reverse = n := by
  induction n using Nat.strong_induction_on with
  | _ n ih =>
    rw [natDigitsRev]
    split
    · next h =>
      simp [digitsToNat, h]
    · next h =>
      rw [List.reverse_cons, digitsToNat_snoc,
          ih (n / 10) (Nat.div_lt_self (Nat.pos_of_ne_zero h) (by omega)),
          charVal_digitChar (Nat.mod_lt _ (by omega))]
      omega

theorem digitsToNat_natToChars (n : Nat) : digitsToNat (natToChars n) = n := by
  unfold natToChars
  split
  · next h =>
    subst h
    decide
  · exact digitsToNat_reverse_natDigitsRev n

theorem natDigitsRev_single {n : Nat} (h1 : 0 < n) (h2 : n < 10) :
    natDigitsRev n = [Nat.digitChar n] := by
  rw [natDigitsRev]
  rw [dif_neg (by omega)]
  rw [Nat.mod_eq_of_lt h2, Nat.div_eq_of_lt h2, natDigitsRev]
  simp

theorem natToChars_lt10 {n : Nat} (h : n < 10) : natToChars n = [Nat.digitChar n] := by
  unfold natToChars
  split
  · next h0 =>
    subst h0
    decide
  · next h0 =>
    rw [natDigitsRev_single (Nat.pos_of_ne_zero h0) h]
    rfl

theorem fracChars_all_digits (x : Nat) : ∀ c ∈ fracChars x, c.isDigit = true := by
  unfold fracChars
  split
  · intro c hc
    rcases List.mem_cons.mp hc with rfl | hm
    · decide
    · exact natToChars_all_digits x c hm
  · exact natToChars_all_digits x

theorem fracChars_length {x : Nat} (h : x < 100) : (fracChars x).length = 2 := by
  unfold fracChars
  split
  · next h10 =>
    rw [natToChars_lt10 h10]
    rfl
  · next h10 =>
    unfold natToChars
    rw [if_neg (by omega)]
    rw [natDigitsRev, dif_neg (by omega)]
    rw [natDigitsRev_single (by omega) (by omega)]
    rfl

theorem digitsToNat_cons_zero (l : List Char) : digitsToNat ('0' :: l) = digitsToNat l := rfl

theorem digitsToNat_fracChars {x : Nat} : digitsToNat (fracChars x) = x := by
  unfold fracChars
  split
  · rw [digitsToNat_cons_zero, digitsToNat_natToChars]
  · rw [digitsToNat_natToChars]

/-! ## Character-class and scanning lemmas for the literal parser -/

theorem ne_of_isDigit {c x : Char} (h : c.isDigit = true) (hx : x.isDigit = false) : c ≠ x := by
  intro e
  subst e
  rw [h] at hx
  cases hx

theorem jsWhitespace_eq_false_of_isDigit {c : Char} (h : c.isDigit = true) :
    jsWhitespace c = false := by
  have h1 : c ≠ ' ' := ne_of_isDigit h (by decide)
  have h2 : c ≠ '\t' := ne_of_isDigit h (by decide)
  have h3 : c ≠ '\n' := ne_of_isDigit h (by decide)
  have h4 : c ≠ '\r' := ne_of_isDigit h (by decide)
  have h5 : c ≠ '\x0b' := ne_of_isDigit h (by decide)
  have h6 : c ≠ '\x0c' := ne_of_isDigit h (by decide)
  simp [jsWhitespace, h1, h2, h3, h4, h5, h6]

theorem takeWhile_append_of_all {p : Char → Bool} {l1 l2 : List Char}
    (h : ∀ c ∈ l1, p c = true) :
    (l1 ++ l2).takeWhile p = l1 ++ l2.takeWhile p := by
  induction l1 with
  | nil => simp
  | cons c l ih =>
    simp only [List.cons_append, List.takeWhile_cons]
    rw [h c (List.mem_cons_self c l)]
    simp only [if_true]
    rw [ih (fun x hx => h x (List.mem_cons_of_mem _ hx))]

theorem dropWhile_append_of_all {p : Char → Bool} {l1 l2 : List Char}
    (h : ∀ c ∈ l1, p c = true) :
    (l1 ++ l2).dropWhile p = l2.dropWhile p := by
  induction l1 with
  | nil => simp
  | cons c l ih =>
    simp only [List.cons_append, List.dropWhile_cons]
    rw [h c (List.mem_cons_self c l)]
    simp only [if_true]
    exact ih (fun x hx => h x (List.mem_cons_of_mem _ hx))

theorem takeWhile_eq_self_of_all {p : Char → Bool} {l : List Char}
    (h : ∀ c ∈ l, p c = true) : l.takeWhile p = l := by
  induction l with
  | nil => rfl
  | cons c l ih =>
    simp only [List.takeWhile_cons]
    rw [h c (List.mem_cons_self c l)]
    simp only [if_true]
    rw [ih (fun x hx => h x (List.mem_cons_of_mem _ hx))]

theorem dropWhile_eq_nil_of_all {p : Char → Bool} {l : List Char}
    (h : ∀ c ∈ l, p c = true) : l.dropWhile p = [] := by
  induction l with
  | nil => rfl
  | cons c l ih =>
    simp only [List.dropWhile_cons]
    rw [h c (List.mem_cons_self c l)]
    simp only [if_true]
    exact ih (fun x hx => h x (List.mem_cons_of_mem _ hx))

theorem parseSign_no_sign {c : Char} {rest : List Char} (h1 : c ≠ '-') (h2 : c ≠ '+') :
    parseSign (c :: rest) = (false, c :: rest) := by
  show (if c = '-' then (true, rest)
        else if c = '+' then (false, rest) else (false, c :: rest)) = (false, c :: rest)
  rw [if_neg h1, if_neg h2]

theorem take_ne_infinity {c : Char} (h : c.isDigit = true) (rest : List Char) :
    ¬ ((c :: rest).take 8 = "Infinity".toList) := by
  intro he
  have hred : "Infinity".toList = 'I' :: "nfinity".toList := rfl
  rw [hred, show (8 : Nat) = 7 + 1 from rfl, List.take_succ_cons] at he
  have hc : c = 'I' := (List.cons.injEq _ _ _ _).mp he |>.1
  subst hc
  exact absurd h (by decide)

/-! ## The toFixed / parseFloat round trip on two-decimal values -/

theorem scalePow10_zero (m : ℚ) : scalePow10 m 0 = m := by
  unfold scalePow10
  rw [if_pos le_rfl]
  norm_num

theorem parseMantissa_shape {i f : Nat} (hf : f < 100) :
    parseMantissa (natToChars i ++ '.' :: fracChars f) =
      some ((i : ℚ) + (f : ℚ) / 100, []) := by
  have hI := natToChars_all_digits i
  have hF := fracChars_all_digits f
  have hdot : ('.' : Char).isDigit = false := by decide
  obtain ⟨c, cs, hc⟩ : ∃ c cs, natToChars i = c :: cs := by
    cases h : natToChars i with
    | nil => exact absurd h (natToChars_ne_nil i)
    | cons c cs => exact ⟨c, cs, rfl⟩
  simp only [parseMantissa, takeWhile_append_of_all hI, dropWhile_append_of_all hI,
    List.takeWhile_cons, List.dropWhile_cons, hdot]
  simp only [Bool.false_eq_true, if_false, List.append_nil, if_pos rfl,
    takeWhile_eq_self_of_all hF, dropWhile_eq_nil_of_all hF]
  rw [hc]
  simp only [List.isEmpty_cons, Bool.false_eq_true, false_and, if_false]
  rw [← hc, digitsToNat_natToChars, digitsToNat_fracChars, fracChars_length hf]
  norm_num

theorem jsParseFloat_core {i f : Nat} (hf : f < 100) :
    jsParseFloat (String.mk (natToChars i ++ '.' :: fracChars f)) =
      JsNum.fin ((i : ℚ) + (f : ℚ) / 100) := by
  obtain ⟨c, cs, hc⟩ : ∃ c cs, natToChars i = c :: cs := by
    cases h : natToChars i with
    | nil => exact absurd h (natToChars_ne_nil i)
    | cons c cs => exact ⟨c, cs, rfl⟩
  have hcd : c.isDigit = true := natToChars_all_digits i c (by rw [hc]; exact List.mem_cons_self c cs)
  have hlist : natToChars i ++ '.' :: fracChars f = c :: (cs ++ '.' :: fracChars f) := by
    rw [hc]
    rfl
  have htl : (String.mk (natToChars i ++ '.' :: fracChars f)).toList
      = c :: (cs ++ '.' :: fracChars f) := by
    rw [← hlist]
    rfl
  simp only [jsParseFloat, htl, List.dropWhile_cons, jsWhitespace_eq_false_of_isDigit hcd,
    Bool.false_eq_true, if_false]
  rw [parseSign_no_sign (ne_of_isDigit hcd (by decide)) (ne_of_isDigit hcd (by decide))]
  simp only [if_neg (take_ne_infinity hcd _), ← hlist, parseMantissa_shape hf]
  simp only [parseExponent, scalePow10_zero, Bool.false_eq_true, if_false]
  rw [hlist, if_neg (take_ne_infinity hcd _)]

theorem jsParseFloat_core_neg {i f : Nat} (hf : f < 100) :
    jsParseFloat (String.mk ('-' :: (natToChars i ++ '.' :: fracChars f))) =
      JsNum.fin (-((i : ℚ) + (f : ℚ) / 100)) := by
  obtain ⟨c, cs, hc⟩ : ∃ c cs, natToChars i = c :: cs := by
    cases h : natToChars i with
    | nil => exact absurd h (natToChars_ne_nil i)
    | cons c cs => exact ⟨c, cs, rfl⟩
  have hcd : c.isDigit = true := natToChars_all_digits i c (by rw [hc]; exact List.mem_cons_self c cs)
  have hlist : natToChars i ++ '.' :: fracChars f = c :: (cs ++ '.' :: fracChars f) := by
    rw [hc]
    rfl
  have htl : (String.mk ('-' :: (natToChars i ++ '.' :: fracChars f))).toList
      = '-' :: (natToChars i ++ '.' :: fracChars f) := rfl
  have hsign : parseSign ('-' :: (natToChars i ++ '.' :: fracChars f))
      = (true, natToChars i ++ '.' :: fracChars f) := by
    show (if ('-' : Char) = '-' then (true, natToChars i ++ '.' :: fracChars f)
          else if ('-' : Char) = '+' then (false, natToChars i ++ '.' :: fracChars f)
          else (false, '-' :: (natToChars i ++ '.' :: fracChars f)))
        = (true, natToChars i ++ '.' :: fracChars f)
    rw [if_pos rfl]
  simp only [jsParseFloat, htl, List.dropWhile_cons, show jsWhitespace '-' = false from by decide,
    Bool.false_eq_true, if_false, hsign]
  rw [hlist]
  simp only [if_neg (take_ne_infinity hcd _), ← hlist, parseMantissa_shape hf]
  simp only [parseExponent, scalePow10_zero, if_pos rfl]
  rw [hlist, if_neg (take_ne_infinity hcd _), if_pos trivial]

theorem floor_half : ⌊(1 / 2 : ℚ)⌋ = 0 := by
  rw [Int.floor_eq_zero_iff]
  constructor <;> norm_num

theorem toFixedRound_intCast (n : ℤ) : toFixedRound (n : ℚ) = n := by
  unfold toFixedRound
  split
  · rw [show -(n : ℚ) = ((-n : ℤ) : ℚ) from by push_cast; ring, Int.floor_int_add, floor_half]
    omega
  · rw [show (n : ℚ) = ((n : ℤ) : ℚ) from rfl, Int.floor_int_add, floor_half]
    omega

theorem toFixed2Q_intCast_div (n : ℤ) :
    toFixed2Q ((n : ℚ) / 100) = String.mk ((if n < 0 then ['-'] else []) ++
      natToChars (n.natAbs / 100) ++ '.' :: fracChars (n.natAbs % 100)) := by
  unfold toFixed2Q
  rw [div_mul_cancel₀ _ (by norm_num : (100 : ℚ) ≠ 0), toFixedRound_intCast]

theorem natAbs_div_add_mod_q (n : ℤ) :
    ((n.natAbs / 100 : ℕ) : ℚ) + ((n.natAbs % 100 : ℕ) : ℚ) / 100 = (n.natAbs : ℚ) / 100 := by
  have h := Nat.div_add_mod n.natAbs 100
  have h' : (100 : ℚ) * ((n.natAbs / 100 : ℕ) : ℚ) + ((n.natAbs % 100 : ℕ) : ℚ)
      = (n.natAbs : ℚ) := by
    exact_mod_cast congrArg (Nat.cast : ℕ → ℚ) h
  rw [eq_div_iff (by norm_num : (100 : ℚ) ≠ 0)]
  linarith

theorem jsParseFloat_toFixed2Q_intCast (n : ℤ) :
    jsParseFloat (toFixed2Q ((n : ℚ) / 100)) = JsNum.fin ((n : ℚ) / 100) := by
  rw [toFixed2Q_intCast_div]
  have hmod : n.natAbs % 100 < 100 := Nat.mod_lt _ (by omega)
  rcases lt_or_le n 0 with hn | hn
  · rw [if_pos hn]
    have hcore := @jsParseFloat_core_neg (n.natAbs / 100) (n.natAbs % 100) hmod
    rw [show (['-'] ++ natToChars (n.natAbs / 100) ++ '.' :: fracChars (n.natAbs % 100))
        = '-' :: (natToChars (n.natAbs / 100) ++ '.' :: fracChars (n.natAbs % 100)) from rfl]
    rw [hcore, natAbs_div_add_mod_q]
    have habs : ((n.natAbs : ℕ) : ℚ) = -(n : ℚ) := by
      rw [Int.cast_natAbs, abs_of_neg hn]
      push_cast
      ring
    rw [habs, show -(-(n : ℚ) / 100) = (n : ℚ) / 100 from by ring]
  · rw [if_neg (by omega)]
    have hcore := @jsParseFloat_core (n.natAbs / 100) (n.natAbs % 100) hmod
    rw [List.nil_append, hcore, natAbs_div_add_mod_q]
    have habs : ((n.natAbs : ℕ) : ℚ) = (n : ℚ) := by
      rw [Int.cast_natAbs, abs_of_nonneg hn]
    rw [habs]

theorem jsParseFloat_toFixed2Q_cents {q : ℚ} (h : isCents q) :
    jsParseFloat (toFixed2Q q) = JsNum.fin q := by
  obtain ⟨n, hn⟩ := h
  have hq : q = ((n : ℤ) : ℚ) / 100 := by
    rw [eq_div_iff (by norm_num : (100 : ℚ) ≠ 0), hn]
  rw [hq]
  exact jsParseFloat_toFixed2Q_intCast _

theorem isCents_add {a b : ℚ} (ha : isCents a) (hb : isCents b) : isCents (a + b) := by
  obtain ⟨na, hna⟩ := ha
  obtain ⟨nb, hnb⟩ := hb
  exact ⟨na + nb, by push_cast; rw [add_mul, hna, hnb]⟩

theorem toFixed2Q_ne_empty (q : ℚ) : toFixed2Q q ≠ "" := by
  unfold toFixed2Q
  intro h
  have hdata : ((if toFixedRound (q * 100) < 0 then ['-'] else []) ++
      natToChars ((toFixedRound (q * 100)).natAbs / 100) ++ '.' ::
      fracChars ((toFixedRound (q * 100)).natAbs % 100)) = ([] : List Char) :=
    congrArg String.data h
  rcases List.append_eq_nil.mp hdata with ⟨h1, h2⟩
  rcases List.append_eq_nil.mp h1 with ⟨_, h3⟩
  exact natToChars_ne_nil _ h3

theorem jsStrOr_some_of_ne {s d : String} (h : s ≠ "") : jsStrOr (some s) d = s := by
  simp [jsStrOr, h]

theorem jsOrZero_fin_of_ne {q : ℚ} (h : q ≠ 0) : jsOrZero (JsNum.fin q) = JsNum.fin q := by
  simp [jsOrZero, h]

theorem parseMantissa_single_zero : parseMantissa ['0'] = some (((digitsToNat ['0'] : ℕ) : ℚ), []) := by
  simp only [parseMantissa, List.takeWhile_cons, List.dropWhile_cons,
    show ('0' : Char).isDigit = true from by decide, if_true, List.takeWhile_nil,
    List.dropWhile_nil, List.isEmpty_cons, Bool.false_eq_true, if_false]

theorem jsParseFloat_zero : jsParseFloat "0" = JsNum.fin 0 := by
  have h0 : "0".toList = ['0'] := rfl
  simp only [jsParseFloat, h0, List.dropWhile_cons,
    show jsWhitespace '0' = false from by decide, Bool.false_eq_true, if_false]
  rw [parseSign_no_sign (by decide) (by decide)]
  simp only [if_neg (take_ne_infinity (by decide : ('0' : Char).isDigit = true) _),
    parseMantissa_single_zero, parseExponent, scalePow10_zero]
  rw [show digitsToNat ['0'] = 0 from by decide]
  norm_num

/-! ## Effect of recordRevoke on the stats singleton (shared by C1 and C10) -/

theorem recordRevoke_stats (data : InsertRevokeHistory) (db : DB) {t q : ℚ}
    (ht : jsParseFloat (statsHead db).2 = JsNum.fin t)
    (hq : jsOrZero (jsParseFloat (jsStrOr data.valueSecured "0")) = JsNum.fin q)
    (htc : isCents t) (hqc : isCents q) :
    (statsHead (recordRevoke data db).2).1 = (statsHead db).1 + 1 ∧
    jsParseFloat (statsHead (recordRevoke data db).2).2 = JsNum.fin (t + q) ∧
    (recordRevoke data db).2.historyRows = db.historyRows ++ [(recordRevoke data db).1] := by
  cases hdb : db.statsRows with
  | nil =>
    have ht0 : t = 0 := by
      rw [statsHead, hdb] at ht
      rw [jsParseFloat_zero] at ht
      exact (JsNum.fin.injEq _ _).mp ht.symm
    subst ht0
    simp only [recordRevoke, hdb, hq, statsHead]
    refine ⟨by trivial, ?_, by trivial⟩
    rw [zero_add]
    exact jsParseFloat_toFixed2Q_cents hqc
  | cons s rest =>
    have hts : jsParseFloat s.totalValueSecured = JsNum.fin t := by
      rw [statsHead, hdb] at ht
      exact ht
    simp only [recordRevoke, hdb, hq, hts, statsHead, List.map_cons, if_pos rfl]
    refine ⟨by trivial, ?_, by trivial⟩
    rw [if_pos trivial]
    exact jsParseFloat_toFixed2Q_cents (isCents_add htc hqc)

/-! ## Claim C1 -/

/-- C1: for every valid POST /api/revoke body, the route hands the parsed
payload to `recordRevoke`; the stats singleton's `totalRevokes` rises by
exactly 1 and its `totalValueSecured` by exactly the submitted `valueSecured`
(0 when the field is omitted), and exactly one RevokeHistory row is
appended. -/
theorem recordRevoke_increments_stats (body : RevokeBody) (data : InsertRevokeHistory)
    (db : DB) (t q : ℚ)
    (hp : insertRevokeHistorySafeParse body = some data)
    (ht : jsParseFloat (statsHead db).2 = JsNum.fin t)
    (hq : jsOrZero (jsParseFloat (jsStrOr data.valueSecured "0")) = JsNum.fin q)
    (htc : isCents t) (hqc : isCents q) :
    postRevokeRoute body db =
      (PostRevokeResult.created (recordRevoke data db).1, (recordRevoke data db).2) ∧
    (statsHead (recordRevoke data db).2).1 = (statsHead db).1 + 1 ∧
    jsParseFloat (statsHead (recordRevoke data db).2).2 = JsNum.fin (t + q) ∧
    (recordRevoke data db).2.historyRows = db.historyRows ++ [(recordRevoke data db).1] ∧
    (data.valueSecured = none → q = 0) := by
  obtain ⟨h1, h2, h3⟩ := recordRevoke_stats data db ht hq htc hqc
  refine ⟨by simp [postRevokeRoute, hp], h1, h2, h3, ?_⟩
  intro hnone
  rw [hnone, show jsStrOr none "0" = "0" from rfl, jsParseFloat_zero,
    show jsOrZero (JsNum.fin 0) = JsNum.fin 0 from rfl] at hq
  exact ((JsNum.fin.injEq _ _).mp hq).symm

/-- Request body fixture for the C1 witness. -/
def bodyC1 : RevokeBody :=
  { walletAddress := some "0xA", tokenAddress := some "0xT",
    tokenSymbol := some "USDC", spenderAddress := some "0xS",
    valueSecured := some (toFixed2Q 150), txHash := none }

/-- Parsed payload fixture for the C1 witness. -/
def dataC1 : InsertRevokeHistory :=
  { walletAddress := "0xA", tokenAddress := "0xT", tokenSymbol := "USDC",
    spenderAddress := "0xS", valueSecured := some (toFixed2Q 150), txHash := none }

/-- Database fixture for the C1 witness: one stats row holding 3 revokes and
a running total of 12.00. -/
def dbC1 : DB :=
  { statsRows := [{ id := 7, totalRevokes := 3, totalValueSecured := toFixed2Q 12 }],
    historyRows := [], nextId := 8, now := 5 }

/-- Witness for C1 at a concrete valid body and database. -/
theorem recordRevoke_increments_stats_witness :
    insertRevokeHistorySafeParse bodyC1 = some dataC1 ∧
    jsParseFloat (statsHead dbC1).2 = JsNum.fin 12 ∧
    jsOrZero (jsParseFloat (jsStrOr dataC1.valueSecured "0")) = JsNum.fin 150 ∧
    isCents (12 : ℚ) ∧ isCents (150 : ℚ) ∧
    (postRevokeRoute bodyC1 dbC1 =
      (PostRevokeResult.created (recordRevoke dataC1 dbC1).1, (recordRevoke dataC1 dbC1).2) ∧
    (statsHead (recordRevoke dataC1 dbC1).2).1 = (statsHead dbC1).1 + 1 ∧
    jsParseFloat (statsHead (recordRevoke dataC1 dbC1).2).2 = JsNum.fin (12 + 150) ∧
    (recordRevoke dataC1 dbC1).2.historyRows
      = dbC1.historyRows ++ [(recordRevoke dataC1 dbC1).1] ∧
    (dataC1.valueSecured = none → (150 : ℚ) = 0)) := by
  have ht : jsParseFloat (statsHead dbC1).2 = JsNum.fin 12 :=
    jsParseFloat_toFixed2Q_cents ⟨1200, by norm_num⟩
  have hq : jsOrZero (jsParseFloat (jsStrOr dataC1.valueSecured "0")) = JsNum.fin 150 := by
    rw [show dataC1.valueSecured = some (toFixed2Q 150) from rfl,
      jsStrOr_some_of_ne (toFixed2Q_ne_empty _),
      jsParseFloat_toFixed2Q_cents ⟨15000, by norm_num⟩,
      jsOrZero_fin_of_ne (by norm_num)]
  exact ⟨rfl, ht, hq, ⟨1200, by norm_num⟩, ⟨15000, by norm_num⟩,
    recordRevoke_increments_stats bodyC1 dataC1 dbC1 12 150 rfl ht hq
      ⟨1200, by norm_num⟩ ⟨15000, by norm_num⟩⟩

/-! ## Claim C10 -/

/-- C10: a POST body whose `valueSecured` string does not parse as a number
still passes schema validation (any present string is accepted for the four
required fields plus `valueSecured`), and `recordRevoke` treats the value as
0: `totalRevokes` still rises by 1 while the parsed running total is
unchanged, and the history row is still inserted. -/
theorem recordRevoke_unparseable_value (data : InsertRevokeHistory) (db : DB) (t : ℚ)
    (s : String)
    (hv : data.valueSecured = some s) (hne : s ≠ "") (hs : jsParseFloat s = JsNum.nan)
    (ht : jsParseFloat (statsHead db).2 = JsNum.fin t) (htc : isCents t) :
    (∀ b : RevokeBody, b.walletAddress.isSome → b.tokenAddress.isSome →
      b.tokenSymbol.isSome → b.spenderAddress.isSome →
      (insertRevokeHistorySafeParse b).isSome) ∧
    (statsHead (recordRevoke data db).2).1 = (statsHead db).1 + 1 ∧
    jsParseFloat (statsHead (recordRevoke data db).2).2 = JsNum.fin t ∧
    (recordRevoke data db).2.historyRows.length = db.historyRows.length + 1 := by
  have hq : jsOrZero (jsParseFloat (jsStrOr data.valueSecured "0")) = JsNum.fin 0 := by
    rw [hv, jsStrOr_some_of_ne hne, hs]
    rfl
  obtain ⟨h1, h2, h3⟩ := recordRevoke_stats data db ht hq htc ⟨0, by norm_num⟩
  refine ⟨?_, h1, by rw [h2, add_zero], by rw [h3]; simp⟩
  intro b hw hta htsym hsp
  obtain ⟨w, hw2⟩ := Option.isSome_iff_exists.mp hw
  obtain ⟨ta, hta2⟩ := Option.isSome_iff_exists.mp hta
  obtain ⟨sym, hsym2⟩ := Option.isSome_iff_exists.mp htsym
  obtain ⟨sp, hsp2⟩ := Option.isSome_iff_exists.mp hsp
  simp [insertRevokeHistorySafeParse, hw2, hta2, hsym2, hsp2]

/-- Parsed payload fixture for the C10 witness: `valueSecured` is the
non-numeric string "abc". -/
def dataC10 : InsertRevokeHistory :=
  { walletAddress := "0xA", tokenAddress := "0xT", tokenSymbol := "USDC",
    spenderAddress := "0xS", valueSecured := some "abc", txHash := none }

/-- Database fixture for the C10 witness. -/
def dbC10 : DB :=
  { statsRows := [{ id := 2, totalRevokes := 9, totalValueSecured := toFixed2Q 40 }],
    historyRows := [], nextId := 3, now := 1 }

/-- Witness for C10 at a concrete unparseable value. -/
theorem recordRevoke_unparseable_value_witness :
    dataC10.valueSecured = some "abc" ∧ "abc" ≠ "" ∧
    jsParseFloat "abc" = JsNum.nan ∧
    jsParseFloat (statsHead dbC10).2 = JsNum.fin 40 ∧ isCents (40 : ℚ) ∧
    ((∀ b : RevokeBody, b.walletAddress.isSome → b.tokenAddress.isSome →
      b.tokenSymbol.isSome → b.spenderAddress.isSome →
      (insertRevokeHistorySafeParse b).isSome) ∧
    (statsHead (recordRevoke dataC10 dbC10).2).1 = (statsHead dbC10).1 + 1 ∧
    jsParseFloat (statsHead (recordRevoke dataC10 dbC10).2).2 = JsNum.fin 40 ∧
    (recordRevoke dataC10 dbC10).2.historyRows.length = dbC10.historyRows.length + 1) := by
  have ht : jsParseFloat (statsHead dbC10).2 = JsNum.fin 40 :=
    jsParseFloat_toFixed2Q_cents ⟨4000, by norm_num⟩
  have hs : jsParseFloat "abc" = JsNum.nan := by decide
  exact ⟨rfl, by decide, hs, ht, ⟨4000, by norm_num⟩,
    recordRevoke_unparseable_value dataC10 dbC10 40 "abc" rfl (by decide) hs ht
      ⟨4000, by norm_num⟩⟩

/-! ## Claim C4 -/

/-- C4: a POST /api/revoke body that fails schema validation (some required
field missing) is answered with HTTP 400 and leaves the database — stats
singleton and revoke history alike — completely unchanged. -/
theorem postRevoke_invalid_unchanged (body : RevokeBody) (db : DB)
    (h : body.walletAddress = none ∨ body.tokenAddress = none ∨
         body.tokenSymbol = none ∨ body.spenderAddress = none) :
    postRevokeRoute body db = (PostRevokeResult.badRequest, db) := by
  rcases body with ⟨w, ta, sym, sp, v, tx⟩
  simp only at h
  rcases w with _ | w <;> rcases ta with _ | ta <;> rcases sym with _ | sym <;>
    rcases sp with _ | sp <;>
    simp_all [postRevokeRoute, insertRevokeHistorySafeParse]

/-- Request body fixture for the C4 witness: `tokenAddress` is missing. -/
def bodyC4 : RevokeBody :=
  { walletAddress := some "0xA", tokenAddress := none,
    tokenSymbol := some "USDC", spenderAddress := some "0xS",
    valueSecured := some "150.00", txHash := none }

/-- Database fixture for the C4 witness. -/
def dbC4 : DB :=
  { statsRows := [{ id := 1, totalRevokes := 4, totalValueSecured := "99.00" }],
    historyRows := [{ id := 0, walletAddress := "0xB", tokenAddress := "0xU",
                      tokenSymbol := "DAI", spenderAddress := "0xV",
                      valueSecured := "1.00", txHash := none, createdAt := 0 }],
    nextId := 2, now := 1 }

/-- Witness for C4 at a concrete body missing `tokenAddress`. -/
theorem postRevoke_invalid_unchanged_witness :
    (bodyC4.walletAddress = none ∨ bodyC4.tokenAddress = none ∨
     bodyC4.tokenSymbol = none ∨ bodyC4.spenderAddress = none) ∧
    postRevokeRoute bodyC4 dbC4 = (PostRevokeResult.badRequest, dbC4) :=
  ⟨by decide, postRevoke_invalid_unchanged bodyC4 dbC4 (by decide)⟩

/-! ## Claim C5 -/

/-- C5: GET /api/stats on a fresh database (no stats row) answers with
totalRevokes 0 and totalValueSecured "0", and afterwards exactly one stats
singleton row exists. -/
theorem getStats_fresh_initializes (db : DB) (h : db.statsRows = []) :
    (getStatsRoute db).1 = (0, "0") ∧ (getStatsRoute db).2.statsRows.length = 1 := by
  simp [getStatsRoute, getRevokeStats, h]

/-- Witness for C5 at a concrete fresh database. -/
theorem getStats_fresh_initializes_witness :
    (DB.mk [] [] 0 0).statsRows = [] ∧
    ((getStatsRoute (DB.mk [] [] 0 0)).1 = (0, "0") ∧
     (getStatsRoute (DB.mk [] [] 0 0)).2.statsRows.length = 1) :=
  ⟨rfl, getStats_fresh_initializes (DB.mk [] [] 0 0) rfl⟩

/-! ## Claims C3 and C9 -/

theorem recent_le_trans : ∀ a b c : HistoryRow,
    decide (b.createdAt ≤ a.createdAt) = true → decide (c.createdAt ≤ b.createdAt) = true →
    decide (c.createdAt ≤ a.createdAt) = true := by
  intro a b c h1 h2
  simp only [decide_eq_true_eq] at h1 h2 ⊢
  omega

theorem recent_le_total : ∀ a b : HistoryRow,
    (decide (b.createdAt ≤ a.createdAt) || decide (a.createdAt ≤ b.createdAt)) = true := by
  intro a b
  simp only [Bool.or_eq_true, decide_eq_true_eq]
  omega

theorem getRecentRevokes_sorted (limit : ℤ) (db : DB) :
    (getRecentRevokes limit db).length ≤ limit.toNat ∧
    (getRecentRevokes limit db).Pairwise (fun a b => b.createdAt ≤ a.createdAt) := by
  constructor
  · exact List.length_take_le _ _
  · unfold getRecentRevokes
    have hs := List.sorted_mergeSort recent_le_trans recent_le_total db.historyRows
    have hs' : (db.historyRows.mergeSort
        (fun a b => b.createdAt ≤ a.createdAt)).Pairwise
        (fun a b => b.createdAt ≤ a.createdAt) :=
      hs.imp (fun h => of_decide_eq_true h)
    exact List.Pairwise.sublist (List.take_sublist _ _) hs'

/-- C3: GET /api/revokes/recent with a positive numeric limit N returns at
most N rows, in creation-time descending order; with the parameter omitted
the limit defaults to 10. -/
theorem recentRevokes_limit_and_order (db : DB) (s : String) (n : ℤ)
    (hs : jsParseInt s = some n) (hpos : 0 < n) :
    (recentRevokesRoute (some s) db).length ≤ n.toNat ∧
    (recentRevokesRoute (some s) db).Pairwise (fun a b => b.createdAt ≤ a.createdAt) ∧
    recentRevokesRoute none db = getRecentRevokes 10 db ∧
    (recentRevokesRoute none db).length ≤ 10 ∧
    (recentRevokesRoute none db).Pairwise (fun a b => b.createdAt ≤ a.createdAt) := by
  have hroute : recentRevokesRoute (some s) db = getRecentRevokes n db := by
    simp [recentRevokesRoute, hs, show ¬ n = 0 from by omega]
  obtain ⟨l1, p1⟩ := getRecentRevokes_sorted n db
  obtain ⟨l2, p2⟩ := getRecentRevokes_sorted 10 db
  rw [hroute]
  exact ⟨l1, p1, rfl, l2, p2⟩

/-- Database fixture for the C3 witness: two history rows inserted out of
creation order. -/
def dbC3 : DB :=
  { statsRows := [],
    historyRows := [{ id := 0, walletAddress := "0xA", tokenAddress := "0xT",
                      tokenSymbol := "USDC", spenderAddress := "0xS",
                      valueSecured := "1.00", txHash := none, createdAt := 0 },
                    { id := 1, walletAddress := "0xA", tokenAddress := "0xT",
                      tokenSymbol := "USDC", spenderAddress := "0xR",
                      valueSecured := "2.00", txHash := none, createdAt := 1 }],
    nextId := 2, now := 2 }

/-- Witness for C3 at limit string "1" over a two-row history. -/
theorem recentRevokes_limit_and_order_witness :
    jsParseInt "1" = some 1 ∧ (0 : ℤ) < 1 ∧
    ((recentRevokesRoute (some "1") dbC3).length ≤ (1 : ℤ).toNat ∧
     (recentRevokesRoute (some "1") dbC3).Pairwise (fun a b => b.createdAt ≤ a.createdAt) ∧
     recentRevokesRoute none dbC3 = getRecentRevokes 10 dbC3 ∧
     (recentRevokesRoute none dbC3).length ≤ 10 ∧
     (recentRevokesRoute none dbC3).Pairwise (fun a b => b.createdAt ≤ a.createdAt)) :=
  ⟨by decide, by decide,
    recentRevokes_limit_and_order dbC3 "1" 1 (by decide) (by decide)⟩

/-- C9: a present limit parameter that parses to NaN or to 0 falls back to
the default limit 10 (both are falsy in JS), so up to 10 rows may come back
even for an explicit limit=0 request. -/
theorem recentRevokes_falsy_limit_defaults (db : DB) (s : String)
    (h : jsParseInt s = none ∨ jsParseInt s = some 0) :
    recentRevokesRoute (some s) db = getRecentRevokes 10 db ∧
    (recentRevokesRoute (some s) db).length ≤ 10 := by
  have heq : recentRevokesRoute (some s) db = getRecentRevokes 10 db := by
    rcases h with h | h <;> simp [recentRevokesRoute, h]
  refine ⟨heq, ?_⟩
  rw [heq]
  exact (getRecentRevokes_sorted 10 db).1

/-- Witness for C9 at the explicit limit=0 request. -/
theorem recentRevokes_falsy_limit_defaults_witness :
    (jsParseInt "0" = none ∨ jsParseInt "0" = some 0) ∧
    (recentRevokesRoute (some "0") dbC3 = getRecentRevokes 10 dbC3 ∧
     (recentRevokesRoute (some "0") dbC3).length ≤ 10) :=
  ⟨by decide, recentRevokes_falsy_limit_defaults dbC3 "0" (by decide)⟩

/-! ## Claim C6 -/

/-- C6: a revoke attempt the user rejects in the wallet (error code 4001 or
ACTION_REJECTED) leaves the detected set untouched, is reported as a
cancellation rather than an error, posts nothing to the backend, and clears
the item's in-progress mark so it is idle and retryable. -/
theorem revoke_user_rejection_retryable (code : ErrCode) (msg account : String)
    (approval : DetectedApproval) (st : UIState)
    (hcode : code = ErrCode.code4001 ∨ code = ErrCode.actionRejected) :
    (handleRevokeDetected true (TxAttempt.failure code msg) account approval st).1.detectedApprovals
      = st.detectedApprovals ∧
    (handleRevokeDetected true (TxAttempt.failure code msg) account approval st).2.1
      = RevokeToast.cancelled ∧
    approval.id ∉
      (handleRevokeDetected true (TxAttempt.failure code msg) account approval st).1.revokingIds ∧
    (handleRevokeDetected true (TxAttempt.failure code msg) account approval st).2.2 = [] := by
  simp only [handleRevokeDetected, not_true, if_false, if_pos hcode]
  refine ⟨by trivial, by trivial, ?_, by trivial⟩
  intro hmem
  have := List.of_mem_filter hmem
  simp at this

/-- Detected-approval fixture for the C6 witness. -/
def approvalC6 : DetectedApproval :=
  { id := "0xT-0xs", tokenAddress := "0xT", tokenName := "Token", tokenSymbol := "USDC",
    spenderAddress := "0xs", allowance := none, valueAtRisk := none }

/-- UI-state fixture for the C6 witness: the approval is currently listed. -/
def stC6 : UIState :=
  { detectedApprovals := [approvalC6], revokingIds := [], selectedIds := [] }

/-- Witness for C6 at a concrete wallet rejection (code 4001). -/
theorem revoke_user_rejection_retryable_witness :
    (ErrCode.code4001 = ErrCode.code4001 ∨ ErrCode.code4001 = ErrCode.actionRejected) ∧
    ((handleRevokeDetected true (TxAttempt.failure ErrCode.code4001 "rejected") "0xme"
        approvalC6 stC6).1.detectedApprovals = stC6.detectedApprovals ∧
     (handleRevokeDetected true (TxAttempt.failure ErrCode.code4001 "rejected") "0xme"
        approvalC6 stC6).2.1 = RevokeToast.cancelled ∧
     approvalC6.id ∉
       (handleRevokeDetected true (TxAttempt.failure ErrCode.code4001 "rejected") "0xme"
         approvalC6 stC6).1.revokingIds ∧
     (handleRevokeDetected true (TxAttempt.failure ErrCode.code4001 "rejected") "0xme"
        approvalC6 stC6).2.2 = []) :=
  ⟨Or.inl rfl, revoke_user_rejection_retryable ErrCode.code4001 "rejected" "0xme"
    approvalC6 stC6 (Or.inl rfl)⟩

/-! ## Claim C7 -/

theorem batchLoop_spec (account : String) (tx : DetectedApproval → Option (Option String))
    (l : List DetectedApproval) :
    batchLoop account tx l =
      ((l.filter (fun a => (tx a).isSome)).length,
       (l.filter (fun a => (tx a).isSome)).map (fun a => a.id),
       (l.filter (fun a => (tx a).isSome)).map
         (fun a => recordRevokeToServer account a ((tx a).getD none))) := by
  induction l with
  | nil => rfl
  | cons a rest ih =>
    cases htx : tx a with
    | some h => simp [batchLoop, htx, ih]
    | none => simp [batchLoop, htx, ih]

/-- C7: with the wallet connected and the network switch succeeding, batch
revoke processes exactly the selected items of the detected set, in order and
each independently: a per-item failure is skipped without stopping the loop,
the final toast reports the aggregate success count over the total, exactly
the individually successful items are posted to the stats recorder, and
exactly those items leave the detected set while the selection is cleared. -/
theorem batchRevoke_sequential (env : BatchEnv) (account : String) (st : UIState)
    (hc : env.connected = true) (hsw : env.switchOk = true)
    (hne : st.detectedApprovals.filter (fun a => a.id ∈ st.selectedIds) ≠ []) :
    (handleBatchRevokeDetected env account st).2.1 =
      BatchToast.batchComplete
        ((st.detectedApprovals.filter (fun a => a.id ∈ st.selectedIds)).filter
          (fun a => (env.tx a).isSome)).length
        (st.detectedApprovals.filter (fun a => a.id ∈ st.selectedIds)).length ∧
    (handleBatchRevokeDetected env account st).2.2 =
      ((st.detectedApprovals.filter (fun a => a.id ∈ st.selectedIds)).filter
        (fun a => (env.tx a).isSome)).map
        (fun a => recordRevokeToServer account a ((env.tx a).getD none)) ∧
    (handleBatchRevokeDetected env account st).1.detectedApprovals =
      st.detectedApprovals.filter (fun a => a.id ∉
        (((st.detectedApprovals.filter (fun b => b.id ∈ st.selectedIds)).filter
          (fun b => (env.tx b).isSome)).map (fun b => b.id))) ∧
    (handleBatchRevokeDetected env account st).1.selectedIds = [] := by
  have hlen : ¬ (st.detectedApprovals.filter (fun a => a.id ∈ st.selectedIds)).length = 0 := by
    simpa [List.length_eq_zero] using hne
  simp only [handleBatchRevokeDetected, hc, hsw, batchLoop_spec, if_neg hlen,
    not_true, if_false]
  exact ⟨by trivial, by trivial, by trivial, by trivial⟩

/-- Detected approvals for the C7 witness: the first succeeds, the second
fails, both selected. -/
def approvalsC7 : List DetectedApproval :=
  [{ id := "0xT-0xa", tokenAddress := "0xT", tokenName := "Token", tokenSymbol := "USDC",
     spenderAddress := "0xa", allowance := none, valueAtRisk := none },
   { id := "0xT-0xb", tokenAddress := "0xT", tokenName := "Token", tokenSymbol := "USDC",
     spenderAddress := "0xb", allowance := none, valueAtRisk := none }]

/-- UI-state fixture for the C7 witness: both approvals selected. -/
def stC7 : UIState :=
  { detectedApprovals := approvalsC7, revokingIds := [],
    selectedIds := ["0xT-0xa", "0xT-0xb"] }

/-- Batch environment for the C7 witness: the wallet is connected, the switch
succeeds, the first item's transaction confirms and the second throws. -/
def envC7 : BatchEnv :=
  { connected := true, switchOk := true,
    tx := fun a => if a.id = "0xT-0xa" then some (some "0xhash") else none }

/-- Witness for C7 at a concrete two-item batch with one failure. -/
theorem batchRevoke_sequential_witness :
    envC7.connected = true ∧ envC7.switchOk = true ∧
    stC7.detectedApprovals.filter (fun a => a.id ∈ stC7.selectedIds) ≠ [] ∧
    ((handleBatchRevokeDetected envC7 "0xme" stC7).2.1 =
      BatchToast.batchComplete
        ((stC7.detectedApprovals.filter (fun a => a.id ∈ stC7.selectedIds)).filter
          (fun a => (envC7.tx a).isSome)).length
        (stC7.detectedApprovals.filter (fun a => a.id ∈ stC7.selectedIds)).length ∧
    (handleBatchRevokeDetected envC7 "0xme" stC7).2.2 =
      ((stC7.detectedApprovals.filter (fun a => a.id ∈ stC7.selectedIds)).filter
        (fun a => (envC7.tx a).isSome)).map
        (fun a => recordRevokeToServer "0xme" a ((envC7.tx a).getD none)) ∧
    (handleBatchRevokeDetected envC7 "0xme" stC7).1.detectedApprovals =
      stC7.detectedApprovals.filter (fun a => a.id ∉
        (((stC7.detectedApprovals.filter (fun b => b.id ∈ stC7.selectedIds)).filter
          (fun b => (envC7.tx b).isSome)).map (fun b => b.id))) ∧
    (handleBatchRevokeDetected envC7 "0xme" stC7).1.selectedIds = []) :=
  ⟨rfl, rfl, by decide,
    batchRevoke_sequential envC7 "0xme" stC7 rfl rfl (by decide)⟩

/-! ## Scan lemmas shared by C2 and C8 -/

theorem scanToken_mem_spec {env : ScanEnv} {account : String} {token : Token}
    {e : DetectedApproval} (h : e ∈ scanToken env account token) :
    e.tokenAddress = token.contractAddress ∧
    ∃ n : ℕ, env.allowanceCall account token.contractAddress e.spenderAddress = some n ∧
      0 < n ∧
      e.allowance = some ((n : ℚ) / (10 : ℚ) ^ jsNatOr token.decimals 18) ∧
      e.valueAtRisk = some (if ((n : ℚ) / (10 : ℚ) ^ jsNatOr token.decimals 18) *
          getTokenPrice (jsStrOrS token.symbol "???") > (10 : ℚ) ^ 12
        then JsNum.inf false
        else JsNum.fin (((n : ℚ) / (10 : ℚ) ^ jsNatOr token.decimals 18) *
          getTokenPrice (jsStrOrS token.symbol "???"))) := by
  unfold scanToken at h
  cases hlogs : env.logsResult token.contractAddress with
  | none =>
    simp only [hlogs] at h
    simp at h
  | some logs =>
    simp only [hlogs] at h
    by_cases hlen : logs.length = 0
    · rw [if_pos hlen] at h
      simp at h
    · rw [if_neg hlen] at h
      obtain ⟨spender, hsp, hf⟩ := List.mem_filterMap.mp h
      cases hall : env.allowanceCall account token.contractAddress spender with
      | none =>
        simp only [hall] at hf
        exact Option.noConfusion hf
      | some n =>
        simp only [hall] at hf
        by_cases hn : 0 < n
        · rw [if_pos hn] at hf
          simp only [Option.some.injEq] at hf
          refine ⟨by rw [← hf], n, ?_, hn, by rw [← hf], by rw [← hf]⟩
          rw [← hf]
          exact hall
        · rw [if_neg hn] at hf
          simp at hf

theorem insertUnique_nodup {l : List String} {s : String} (h : l.Nodup) :
    (insertUnique l s).Nodup := by
  unfold insertUnique
  split
  · exact h
  · next hmem => simp [List.nodup_append, h, hmem]

theorem foldl_insertUnique_nodup :
    ∀ (l acc : List String), acc.Nodup → (l.foldl insertUnique acc).Nodup := by
  intro l
  induction l with
  | nil => intro acc h; exact h
  | cons s rest ih => intro acc h; exact ih _ (insertUnique_nodup h)

theorem uniqueSpenders_nodup (logs : List ApprovalLog) : (uniqueSpenders logs).Nodup :=
  foldl_insertUnique_nodup _ [] List.nodup_nil

theorem filterMap_spender_pairwise (f : String → Option DetectedApproval)
    (hf : ∀ s e, f s = some e → e.spenderAddress = s)
    {l : List String} (h : l.Nodup) :
    (l.filterMap f).Pairwise (fun a b => a.spenderAddress ≠ b.spenderAddress) := by
  refine List.pairwise_filterMap.mpr (h.imp ?_)
  intro a b hne e he e' he'
  intro heq
  exact hne (by rw [← hf a e he, ← hf b e' he', heq])

theorem scanToken_spenders_nodup (env : ScanEnv) (account : String) (token : Token) :
    (scanToken env account token).Pairwise (fun a b => a.spenderAddress ≠ b.spenderAddress) := by
  cases hlogs : env.logsResult token.contractAddress with
  | none => simp [scanToken, hlogs]
  | some logs =>
    by_cases hlen : logs.length = 0
    · simp [scanToken, hlogs, hlen]
    · simp only [scanToken, hlogs, if_neg hlen]
      refine filterMap_spender_pairwise _ ?_ (uniqueSpenders_nodup logs)
      intro s e hfe
      cases hall : env.allowanceCall account token.contractAddress s with
      | none =>
        simp only [hall] at hfe
        exact Option.noConfusion hfe
      | some n =>
        simp only [hall] at hfe
        by_cases hn : 0 < n
        · rw [if_pos hn] at hfe
          simp only [Option.some.injEq] at hfe
          rw [← hfe]
        · rw [if_neg hn] at hfe
          simp at hfe

theorem length_filter_le_one {α : Type} {p : α → Bool} {l : List α}
    (h : l.Pairwise (fun a b => ¬ (p a = true ∧ p b = true))) :
    (l.filter p).length ≤ 1 := by
  induction l with
  | nil => simp
  | cons a rest ih =>
    rcases List.pairwise_cons.mp h with ⟨ha, hrest⟩
    by_cases hpa : p a = true
    · rw [List.filter_cons_of_pos hpa]
      have hnil : rest.filter p = [] := by
        rw [List.filter_eq_nil_iff]
        intro b hb hpb
        exact ha b hb ⟨hpa, hpb⟩
      rw [hnil]
      simp
    · rw [List.filter_cons_of_neg hpa]
      exact ih hrest

theorem scan_filter_pair_le_one (env : ScanEnv) (account t sp : String) :
    ∀ tokenList : List Token, (tokenList.map Token.contractAddress).Nodup →
      ((scanForApprovals env account tokenList).filter
        (fun e => e.tokenAddress = t ∧ e.spenderAddress = sp)).length ≤ 1 := by
  intro tokenList
  induction tokenList with
  | nil =>
    intro _
    simp [scanForApprovals]
  | cons tok rest ih =>
    intro hnd
    rw [List.map_cons, List.nodup_cons] at hnd
    obtain ⟨hni, hrest⟩ := hnd
    have hsplit : scanForApprovals env account (tok :: rest)
        = scanToken env account tok ++ scanForApprovals env account rest := by
      simp [scanForApprovals]
    rw [hsplit, List.filter_append, List.length_append]
    by_cases ht : tok.contractAddress = t
    · have hrest0 : (scanForApprovals env account rest).filter
          (fun e => e.tokenAddress = t ∧ e.spenderAddress = sp) = [] := by
        rw [List.filter_eq_nil_iff]
        intro e he hpe
        obtain ⟨tok', htok', hmem⟩ := List.mem_flatMap.mp he
        have haddr := (scanToken_mem_spec hmem).1
        apply hni
        have : tok'.contractAddress = tok.contractAddress := by
          rw [← haddr, (of_decide_eq_true hpe).1, ht]
        rw [← this]
        exact List.mem_map.mpr ⟨tok', htok', rfl⟩
      rw [hrest0]
      simp only [List.length_nil, add_zero]
      apply length_filter_le_one
      refine (scanToken_spenders_nodup env account tok).imp ?_
      intro a b hne hab
      exact hne (by rw [(of_decide_eq_true hab.1).2, (of_decide_eq_true hab.2).2])
    · have htok0 : (scanToken env account tok).filter
          (fun e => e.tokenAddress = t ∧ e.spenderAddress = sp) = [] := by
        rw [List.filter_eq_nil_iff]
        intro e he hpe
        exact ht (by rw [← (scanToken_mem_spec he).1, (of_decide_eq_true hpe).1])
      rw [htok0]
      simpa using ih hrest

/-! ## Claim C2 -/

/-- C2: for every token and spender, the scan result holds at most one
DetectedApproval per (token, spender) pair — repeated historical Approval
logs collapse through the lowercased spender set — and every entry in the
detected set comes from a live `allowance(owner, spender)` read that returned
a strictly positive amount, so a spender whose live allowance is zero never
appears. -/
theorem scan_unique_per_pair_and_live (env : ScanEnv) (account : String)
    (tokenList : List Token) (t sp : String)
    (hnd : (tokenList.map Token.contractAddress).Nodup) :
    ((scanForApprovals env account tokenList).filter
      (fun e => e.tokenAddress = t ∧ e.spenderAddress = sp)).length ≤ 1 ∧
    ∀ e ∈ scanForApprovals env account tokenList,
      ∃ n : ℕ, env.allowanceCall account e.tokenAddress e.spenderAddress = some n ∧ 0 < n := by
  refine ⟨scan_filter_pair_le_one env account t sp tokenList hnd, ?_⟩
  intro e he
  obtain ⟨tok, htok, hmem⟩ := List.mem_flatMap.mp he
  obtain ⟨haddr, n, hall, hn, _, _⟩ := scanToken_mem_spec hmem
  refine ⟨n, ?_, hn⟩
  rw [haddr]
  exact hall

/-- Token fixture for the scan witnesses. -/
def tokScan : Token :=
  { contractAddress := "0xT", name := "Token", symbol := "USDC", decimals := some 6 }

/-- Scan environment fixture for the scan witnesses: the explorer returns the
same Approval log twice for the token, and the live allowance read returns 5
for every spender. -/
def envScan : ScanEnv :=
  { logsResult := fun a =>
      if a = "0xT" then some [{ topics := ["t0", "owner", "0xSPENDER"] },
                              { topics := ["t0", "owner", "0xSPENDER"] }]
      else none,
    allowanceCall := fun _ _ _ => some 5 }

/-- Witness for C2 at a concrete one-token scan with a duplicated log. -/
theorem scan_unique_per_pair_and_live_witness :
    ([tokScan].map Token.contractAddress).Nodup ∧
    ((((scanForApprovals envScan "0xme" [tokScan]).filter
      (fun e => e.tokenAddress = "0xT" ∧ e.spenderAddress = "0x0xspender")).length ≤ 1) ∧
    ∀ e ∈ scanForApprovals envScan "0xme" [tokScan],
      ∃ n : ℕ, envScan.allowanceCall "0xme" e.tokenAddress e.spenderAddress = some n ∧ 0 < n) :=
  ⟨by decide,
    scan_unique_per_pair_and_live envScan "0xme" [tokScan] "0xT" "0x0xspender" (by decide)⟩

/-! ## Claim C8 -/

/-- C8: every detected entry's estimated USD value at risk is the allowance
in human units (allowance / 10^decimals) multiplied by the price-table price
of the token's symbol, capped to Infinity above 10^12; an unrecognized symbol
prices at the 0.01 placeholder; and an infinite value formats as
"Unlimited". -/
theorem scan_value_at_risk_formula (env : ScanEnv) (account : String)
    (tokenList : List Token) :
    (∀ e ∈ scanForApprovals env account tokenList,
      ∃ tok ∈ tokenList, e.tokenAddress = tok.contractAddress ∧
        ∃ n : ℕ, env.allowanceCall account tok.contractAddress e.spenderAddress = some n ∧
          0 < n ∧
          e.valueAtRisk = some (if ((n : ℚ) / (10 : ℚ) ^ jsNatOr tok.decimals 18) *
              getTokenPrice (jsStrOrS tok.symbol "???") > (10 : ℚ) ^ 12
            then JsNum.inf false
            else JsNum.fin (((n : ℚ) / (10 : ℚ) ^ jsNatOr tok.decimals 18) *
              getTokenPrice (jsStrOrS tok.symbol "???")))) ∧
    (∀ s : String, TESTNET_PRICES.lookup s.toUpper = none → getTokenPrice s = 1 / 100) ∧
    formatValueAtRisk (some (JsNum.inf false)) = "Unlimited" := by
  refine ⟨?_, ?_, rfl⟩
  · intro e he
    obtain ⟨tok, htok, hmem⟩ := List.mem_flatMap.mp he
    obtain ⟨haddr, n, hall, hn, _, hv⟩ := scanToken_mem_spec hmem
    exact ⟨tok, htok, haddr, n, hall, hn, hv⟩
  · intro s hs
    simp [getTokenPrice, hs]

/-- Witness for C8 at the concrete one-token scan environment. -/
theorem scan_value_at_risk_formula_witness :
    (∀ e ∈ scanForApprovals envScan "0xme" [tokScan],
      ∃ tok ∈ [tokScan], e.tokenAddress = tok.contractAddress ∧
        ∃ n : ℕ, envScan.allowanceCall "0xme" tok.contractAddress e.spenderAddress = some n ∧
          0 < n ∧
          e.valueAtRisk = some (if ((n : ℚ) / (10 : ℚ) ^ jsNatOr tok.decimals 18) *
              getTokenPrice (jsStrOrS tok.symbol "???") > (10 : ℚ) ^ 12
            then JsNum.inf false
            else JsNum.fin (((n : ℚ) / (10 : ℚ) ^ jsNatOr tok.decimals 18) *
              getTokenPrice (jsStrOrS tok.symbol "???")))) ∧
    (∀ s : String, TESTNET_PRICES.lookup s.toUpper = none → getTokenPrice s = 1 / 100) ∧
    formatValueAtRisk (some (JsNum.inf false)) = "Unlimited" :=
  scan_value_at_risk_formula envScan "0xme" [tokScan]


end ArcRevoke
